import Mathlib

/-!
Verification of the fredio core against its natural-language specification.

The definitions below are a shallow embedding of `src/fredio` (client.py,
locks.py, events.py). Pure control flow is translated into Lean functions;
exceptions become `Except`; the asyncio interleaving relevant to the claims
(permit acquire/release, backoff sleeps) is made explicit as an event trace.
-/

namespace Fredio

/-! ## Pagination: `ApiClient.get` (client.py lines 170-203)

A page body carries optional `count` / `limit` / `offset` fields
(`results[0].get(...)`).  The data payload of a page is irrelevant to the
claims, so a page is just its three pagination fields. -/

structure Page where
  count : Option Nat
  limit : Option Nat
  offset : Option Nat
deriving DecidableEq, Repr

/-- Python truthiness of an optional non-negative integer field:
`None` and `0` are falsy, every other value is truthy. -/
def pyTruthy : Option Nat → Bool
  | none => false
  | some n => n != 0

/-- The value list of Python `range(start, stop, step)` for `step > 0`:
`start`, `start + step`, ... strictly below `stop`. -/
def rangeList (start stop step : Nat) : List Nat :=
  (List.range ((stop - start + step - 1) / step)).map fun i => start + i * step

/-- Python `range(start, stop, step)`, which raises
`ValueError: range() arg 3 must not be zero` when `step = 0`. -/
def pyRange (start stop step : Nat) : Except String (List Nat) :=
  if step = 0 then Except.error "ValueError: range() arg 3 must not be zero"
  else Except.ok (rangeList start stop step)

/-- `ApiClient.get` (client.py 170-203).

`fetch x` models the helper `json(url.update_query(offset=x))`: the page the
server returns for the follow-up request at offset `x`.  The probe request is
the page passed in as `probe`.

Faithful to the source:
* `count = results[0].get("count")`, `limit = results[0].get("limit")` are
  optional; `offset = results[0].get("offset", 0)` defaults to 0;
* the guard is Python truthiness of `count or limit`;
* the follow-up offsets are `range(limit + offset, count, limit)`, which
  raises ValueError when `limit = 0` and TypeError when `limit` or `count`
  is `None`;
* `asyncio.gather` keeps the results in argument order, so the returned list
  is the probe page followed by the follow-up pages in offset order. -/
def apiGet (probe : Page) (fetch : Nat → Page) : Except String (List Page) :=
  let count := probe.count
  let limit := probe.limit
  let offset := probe.offset.getD 0
  if pyTruthy count || pyTruthy limit then
    match count, limit with
    | some c, some l =>
      match pyRange (l + offset) c l with
      | Except.ok offs => Except.ok (probe :: offs.map fetch)
      | Except.error e => Except.error e
    | _, _ => Except.error "TypeError: NoneType in range arithmetic"
  else
    Except.ok [probe]

/-! ### Arithmetic facts about `rangeList` -/

theorem lt_ceilDiv_iff (m s i : Nat) (hs : 0 < s) :
    i < (m + s - 1) / s ↔ i * s < m := by
  have h1 : i < (m + s - 1) / s ↔ i + 1 ≤ (m + s - 1) / s := Iff.rfl
  rw [h1, Nat.le_div_iff_mul_le hs, Nat.succ_mul]
  have ht : 0 ≤ i * s := Nat.zero_le _
  omega

theorem mem_rangeList (a b s x : Nat) (hs : 0 < s) :
    x ∈ rangeList a b s ↔ ∃ i, x = a + i * s ∧ a + i * s < b := by
  unfold rangeList
  simp only [List.mem_map, List.mem_range]
  constructor
  · rintro ⟨i, hi, rfl⟩
    refine ⟨i, rfl, ?_⟩
    rw [lt_ceilDiv_iff _ _ _ hs] at hi
    omega
  · rintro ⟨i, rfl, hlt⟩
    refine ⟨i, ?_, rfl⟩
    rw [lt_ceilDiv_iff _ _ _ hs]
    omega

theorem rangeList_sorted (a b s : Nat) (hs : 0 < s) :
    List.Pairwise (· < ·) (rangeList a b s) := by
  unfold rangeList
  rw [List.pairwise_map]
  refine List.Pairwise.imp ?_ (List.pairwise_lt_range _)
  intro i j hij
  have : i * s < j * s := by
    have := Nat.mul_le_mul_right s hij
    have h2 : i * s + s ≤ j * s := by
      calc i * s + s = (i + 1) * s := (Nat.succ_mul i s).symm
        _ ≤ j * s := Nat.mul_le_mul_right s hij
    omega
  omega

/-! ### Claim theorems about pagination (C2, C6, C10) -/

/-- C2 (code_bug evidence): a probe page with `limit = 0` and `count = 2 > 0`
makes `ApiClient.get` evaluate `range(limit + offset, count, limit)` with step
zero, which raises ValueError.  The claim (and the spec's numeric-semantics
rule) says the call must instead treat `limit == 0` as "no further pages" and
return just the probe page. -/
theorem c2_limit_zero_raises :
    apiGet { count := some 2, limit := some 0, offset := some 0 }
        (fun o => { count := some 2, limit := some 0, offset := some o })
      = Except.error "ValueError: range() arg 3 must not be zero" := rfl

/-- C6: for a probe page with `count = c`, `limit = l > 0`, `offset = o`, the
paginated fetch returns the probe page followed by exactly one fetched page
per offset in `range(l + o, c, l)`; those offsets are exactly the values
`o + k * l` (`k ≥ 1`) strictly below `c`, listed in strictly ascending
order. -/
theorem c6_pagination (probe : Page) (fetch : Nat → Page) (c l o : Nat)
    (hc : probe.count = some c) (hl : probe.limit = some l)
    (ho : probe.offset = some o) (hlpos : 0 < l) :
    apiGet probe fetch = Except.ok (probe :: (rangeList (l + o) c l).map fetch)
    ∧ (∀ x, x ∈ rangeList (l + o) c l ↔ ∃ k, 1 ≤ k ∧ x = o + k * l ∧ x < c)
    ∧ List.Pairwise (· < ·) (rangeList (l + o) c l) := by
  refine ⟨?_, ?_, rangeList_sorted _ _ _ hlpos⟩
  · unfold apiGet
    rw [hc, hl, ho]
    have hlt : pyTruthy (some l) = true := by
      simp only [pyTruthy, bne_iff_ne, ne_eq]
      omega
    simp only [hlt, Bool.or_true, Option.getD_some]
    rw [if_pos trivial]
    unfold pyRange
    rw [if_neg (by omega)]
  · intro x
    rw [mem_rangeList _ _ _ _ hlpos]
    constructor
    · rintro ⟨i, rfl, hlt⟩
      refine ⟨i + 1, by omega, ?_, ?_⟩
      · rw [Nat.succ_mul]
        omega
      · omega
    · rintro ⟨k, hk1, rfl, hlt⟩
      refine ⟨k - 1, ?_, ?_⟩
      · have : (k - 1) * l + l = k * l := by
          have : k - 1 + 1 = k := by omega
          calc (k - 1) * l + l = (k - 1 + 1) * l := (Nat.succ_mul _ _).symm
            _ = k * l := by rw [this]
        omega
      · have : (k - 1) * l + l = k * l := by
          have hks : k - 1 + 1 = k := by omega
          calc (k - 1) * l + l = (k - 1 + 1) * l := (Nat.succ_mul _ _).symm
            _ = k * l := by rw [hks]
        omega

/-- Witness for C6 at the spec's concrete instance: probe page
`count=2, limit=1, offset=0` produces exactly 2 pages, the probe followed by
the page fetched at offset 1. -/
theorem c6_pagination_witness :
    apiGet { count := some 2, limit := some 1, offset := some 0 }
        (fun o => { count := some 2, limit := some 1, offset := some o })
      = Except.ok ((⟨some 2, some 1, some 0⟩ : Page) ::
          (rangeList (1 + 0) 2 1).map
            (fun o => { count := some 2, limit := some 1, offset := some o }))
    ∧ (∀ x, x ∈ rangeList (1 + 0) 2 1 ↔ ∃ k, 1 ≤ k ∧ x = 0 + k * 1 ∧ x < 2)
    ∧ List.Pairwise (· < ·) (rangeList (1 + 0) 2 1) :=
  c6_pagination ⟨some 2, some 1, some 0⟩
    (fun o => { count := some 2, limit := some 1, offset := some o })
    2 1 0 rfl rfl rfl (by decide)

/-- Helper for C10: pagination of a probe page whose offset field is absent. -/
theorem apiGet_offsets_from_zero (probe : Page) (fetch : Nat → Page) (c l : Nat)
    (hc : probe.count = some c) (hl : probe.limit = some l)
    (ho : probe.offset = none) (hlpos : 0 < l) :
    apiGet probe fetch = Except.ok (probe :: (rangeList (l + 0) c l).map fetch)
    ∧ (∀ x, x ∈ rangeList (l + 0) c l ↔ ∃ k, 1 ≤ k ∧ x = k * l ∧ x < c) := by
  constructor
  · unfold apiGet
    rw [hc, hl, ho]
    have hlt : pyTruthy (some l) = true := by
      simp only [pyTruthy, bne_iff_ne, ne_eq]
      omega
    simp only [hlt, Bool.or_true, Option.getD_none]
    rw [if_pos trivial]
    unfold pyRange
    rw [if_neg (by omega)]
  · intro x
    rw [mem_rangeList _ _ _ _ hlpos]
    constructor
    · rintro ⟨i, rfl, hlt⟩
      refine ⟨i + 1, by omega, ?_, ?_⟩
      · rw [Nat.succ_mul]
        omega
      · omega
    · rintro ⟨k, hk1, rfl, hlt⟩
      refine ⟨k - 1, ?_, ?_⟩
      all_goals
        have hks : (k - 1) * l + l = k * l := by
          have h1 : k - 1 + 1 = k := by omega
          calc (k - 1) * l + l = (k - 1 + 1) * l := (Nat.succ_mul _ _).symm
            _ = k * l := by rw [h1]
        omega

/-- C10: a probe page with `count` and `limit` present (`limit > 0`) but no
`offset` field is paginated with the missing offset defaulted to 0
(`results[0].get("offset", 0)`): the follow-up offsets are exactly the
multiples `k * l` (`k ≥ 1`) strictly below `c`, and the call does not fail
on the absent field. -/
theorem c10_missing_offset (probe : Page) (fetch : Nat → Page) (c l : Nat)
    (hc : probe.count = some c) (hl : probe.limit = some l)
    (ho : probe.offset = none) (hlpos : 0 < l) :
    apiGet probe fetch = Except.ok (probe :: (rangeList (l + 0) c l).map fetch)
    ∧ (∀ x, x ∈ rangeList (l + 0) c l ↔ ∃ k, 1 ≤ k ∧ x = k * l ∧ x < c) :=
  apiGet_offsets_from_zero probe fetch c l hc hl ho hlpos

/-- Witness for C10: probe `count=2, limit=1`, offset absent: two pages,
offsets 0 (implicit) and 1. -/
theorem c10_missing_offset_witness :
    apiGet { count := some 2, limit := some 1, offset := none }
        (fun o => { count := some 2, limit := some 1, offset := some o })
      = Except.ok ((⟨some 2, some 1, none⟩ : Page) ::
          (rangeList (1 + 0) 2 1).map
            (fun o => { count := some 2, limit := some 1, offset := some o }))
    ∧ (∀ x, x ∈ rangeList (1 + 0) 2 1 ↔ ∃ k, 1 ≤ k ∧ x = k * 1 ∧ x < 2) :=
  c10_missing_offset ⟨some 2, some 1, none⟩
    (fun o => { count := some 2, limit := some 1, offset := some o })
    2 1 rfl rfl rfl (by decide)

/-! ## Request/retry engine: `ApiClient.request` (client.py lines 130-168)

The asyncio interleaving relevant to claims C1, C4 and C5 is made explicit
as a trace of events.  One loop iteration of `request` is:

    async with self.ratelimiter:            -- acquire; release on block exit
        async with self.session.request(method, url) as response:
            response.raise_for_status()     -- raises iff status >= 400 (aiohttp)
            ... return response             -- success: release on exit, return
        except ClientResponseError:
            retries -= 1
            if retries >= 0:
                await self._handle_exception(response, e)
                -- 429: sleeps for the backoff INSIDE the rate-limiter context,
                --      then falls off the except block, so the release happens
                --      only when the context exits, AFTER the sleep;
                -- any other status: re-raises immediately (release on exit)
            else:
                raise                       -- release on exit, propagate

`s i` is the HTTP status the server returns for the i-th attempt
(0-indexed).  The trace records permit acquisition, the HTTP attempt, the
backoff sleep and the deferred-release call in program order. -/

inductive Ev where
  | acquire
  | attempt (status : Nat)
  | sleep
  | release
deriving DecidableEq, Repr

/-- `aiohttp.ClientResponse.raise_for_status` raises `ClientResponseError`
exactly when the status is `>= 400`. -/
def raisesForStatus (status : Nat) : Bool := decide (400 ≤ status)

/-- Event trace of `ApiClient.request` starting at attempt index `k` with
`retries` remaining.  Every attempt acquires a permit; the deferred
`release` is recorded when the `async with self.ratelimiter` block exits:
after the return on success, after the propagating raise on failure, and
after the backoff sleep on a retried 429. -/
def requestTrace (s : Nat → Nat) : Nat → Nat → List Ev
  | 0, k =>
    -- retries exhausted: one attempt; on any outcome the context exits
    -- (success return, or `raise` with no budget left)
    [Ev.acquire, Ev.attempt (s k), Ev.release]
  | r + 1, k =>
    let st := s k
    if raisesForStatus st then
      if st = 429 then
        -- retries -= 1; retries >= 0: sleep inside the context, then retry
        Ev.acquire :: Ev.attempt st :: Ev.sleep :: Ev.release ::
          requestTrace s r (k + 1)
      else
        -- _handle_exception re-raises: context exits, error propagates
        [Ev.acquire, Ev.attempt st, Ev.release]
    else
      [Ev.acquire, Ev.attempt st, Ev.release]

/-- Result of `ApiClient.request`: `Except.error st` models the propagated
`ClientResponseError` (which carries the HTTP status `st`), `Except.ok st`
models the returned response. -/
def requestResult (s : Nat → Nat) : Nat → Nat → Except Nat Nat
  | 0, k =>
    let st := s k
    if raisesForStatus st then Except.error st else Except.ok st
  | r + 1, k =>
    let st := s k
    if raisesForStatus st then
      if st = 429 then requestResult s r (k + 1)
      else Except.error st
    else Except.ok st

/-- Number of HTTP attempts recorded in a trace. -/
def countAttempts : List Ev → Nat
  | [] => 0
  | Ev.attempt _ :: tr => countAttempts tr + 1
  | _ :: tr => countAttempts tr

/-- The claim C1 predicate: scanning the trace with a running count of held
permits, every backoff sleep happens while no permit is held. -/
def noSleepWhileHeld : Nat → List Ev → Bool
  | _, [] => true
  | held, Ev.acquire :: tr => noSleepWhileHeld (held + 1) tr
  | held, Ev.release :: tr => noSleepWhileHeld (held - 1) tr
  | held, Ev.attempt _ :: tr => noSleepWhileHeld held tr
  | held, Ev.sleep :: tr => (held == 0) && noSleepWhileHeld held tr

/-- The actual ordering in the code: every backoff sleep happens while
exactly one permit (the attempt's own) is still held, and the very next
event is its release. -/
def sleepHoldsPermit : Nat → List Ev → Bool
  | _, [] => true
  | held, Ev.acquire :: tr => sleepHoldsPermit (held + 1) tr
  | held, Ev.release :: tr => sleepHoldsPermit (held - 1) tr
  | held, Ev.attempt _ :: tr => sleepHoldsPermit held tr
  | held, Ev.sleep :: tr =>
      (held == 1) && (tr.head? == some Ev.release) && sleepHoldsPermit held tr

/-- The all-429 server. -/
def always429 : Nat → Nat := fun _ => 429

/-! ### Claim theorems about request/retry (C1, C4, C5) -/

/-- C1 counterexample: with `retries = 1` against an all-429 server, the
trace contains a backoff sleep (index 2) executed while the permit acquired
at index 0 is still held — the release only comes at index 3, after the
sleep.  This refutes "the permit is released before the backoff sleep
begins". -/
theorem c1_counterexample :
    requestTrace always429 1 0 =
      [Ev.acquire, Ev.attempt 429, Ev.sleep, Ev.release,
       Ev.acquire, Ev.attempt 429, Ev.release]
    ∧ noSleepWhileHeld 0 (requestTrace always429 1 0) = false := by
  constructor <;> rfl

/-- C1 amended: in every run of `request`, each backoff sleep is executed
while the permit for the current attempt is still held (held-count exactly
1), and that permit's deferred release is the very next event after the
sleep — i.e. the release happens immediately after the sleep and before the
next acquisition, not before the sleep. -/
theorem c1_sleep_holds_permit (s : Nat → Nat) (r k : Nat) :
    sleepHoldsPermit 0 (requestTrace s r k) = true := by
  induction r generalizing k with
  | zero => rfl
  | succ r ih =>
    unfold requestTrace
    by_cases h4 : raisesForStatus (s k) = true
    · by_cases h9 : s k = 429
      · simp only [h4, h9, if_true, if_pos]
        show sleepHoldsPermit 0 (Ev.acquire :: Ev.attempt 429 :: Ev.sleep ::
          Ev.release :: requestTrace s r (k + 1)) = true
        unfold sleepHoldsPermit
        unfold sleepHoldsPermit
        unfold sleepHoldsPermit
        simp only [List.head?, beq_self_eq_true, Bool.true_and]
        show sleepHoldsPermit 1 (Ev.release :: requestTrace s r (k + 1)) = true
        unfold sleepHoldsPermit
        exact ih (k + 1)
      · simp only [h4, h9, if_true, if_neg]
        rfl
    · simp only [Bool.not_eq_true] at h4
      simp only [h4, Bool.false_eq_true, if_false]
      rfl

/-- C4 helper: against a server that answers 429 to attempts `k ... k + r`,
the run starting at attempt `k` with `r` retries makes exactly `r + 1`
attempts and propagates the last 429. -/
theorem request_all429 (s : Nat → Nat) :
    ∀ r k, (∀ i, i ≤ r → s (k + i) = 429) →
      countAttempts (requestTrace s r k) = r + 1
      ∧ requestResult s r k = Except.error 429 := by
  intro r
  induction r with
  | zero =>
    intro k h
    have hk : s k = 429 := by
      have := h 0 (Nat.le_refl 0)
      simpa using this
    constructor
    · unfold requestTrace countAttempts
      rw [hk]
      rfl
    · unfold requestResult
      rw [hk]
      rfl
  | succ r ih =>
    intro k h
    have hk : s k = 429 := by
      have := h 0 (Nat.zero_le _)
      simpa using this
    have hrec := ih (k + 1) (fun i hi => by
      have := h (i + 1) (by omega)
      have harg : k + (i + 1) = k + 1 + i := by omega
      rw [harg] at this
      exact this)
    have h4 : raisesForStatus 429 = true := by decide
    constructor
    · unfold requestTrace
      rw [hk]
      simp only [h4, if_true, if_pos]
      show countAttempts (Ev.acquire :: Ev.attempt 429 :: Ev.sleep ::
        Ev.release :: requestTrace s r (k + 1)) = r + 1 + 1
      simp only [countAttempts]
      rw [hrec.1]
    · unfold requestResult
      rw [hk]
      simp only [h4, if_true, if_pos]
      exact hrec.2

/-- C4 counterexample: the terminal error raised after exhausting retries is
the last `ClientResponseError` itself; it is the same value whether the run
made 1 attempt (`retries=0`) or 3 attempts (`retries=2`), so no function of
the propagated error can recover the attempt count — the error carries the
last status but not the attempt count, refuting "a terminal error carrying
the last status and attempt count". -/
theorem c4_counterexample :
    ¬ ∃ f : Except Nat Nat → Nat,
        ∀ r : Nat, f (requestResult always429 r 0)
          = countAttempts (requestTrace always429 r 0) := by
  rintro ⟨f, hf⟩
  have h0 := hf 0
  have h2 := hf 2
  have e0 : requestResult always429 0 0 = Except.error 429 := rfl
  have e2 : requestResult always429 2 0 = Except.error 429 := rfl
  have a0 : countAttempts (requestTrace always429 0 0) = 1 := rfl
  have a2 : countAttempts (requestTrace always429 2 0) = 3 := rfl
  rw [e0, a0] at h0
  rw [e2, a2] at h2
  omega

/-- C4 amended: with retry bound `r` against a server answering every
attempt with 429, exactly `r + 1` HTTP attempts are made and the terminal
error carrying the last status (429) is raised; and if the first `k`
attempts (`k ≤ r`) return 429 and attempt `k` returns a 2xx status, the
request succeeds with that response after exactly `k + 1` attempts and no
further attempts are made.  (The attempt count is not carried in the
error; see the counterexample.) -/
theorem c4_retry_semantics :
    (∀ (s : Nat → Nat) (r : Nat), (∀ i, i ≤ r → s i = 429) →
        countAttempts (requestTrace s r 0) = r + 1
        ∧ requestResult s r 0 = Except.error 429)
    ∧ (∀ (s : Nat → Nat) (r k : Nat), k ≤ r → (∀ i, i < k → s i = 429) →
        200 ≤ s k → s k < 300 →
        countAttempts (requestTrace s r 0) = k + 1
        ∧ requestResult s r 0 = Except.ok (s k)) := by
  constructor
  · intro s r h
    have := request_all429 s r 0 (fun i hi => by
      have := h i hi
      simpa using this)
    exact this
  · intro s r k
    suffices hgen : ∀ (k r k0 : Nat), k ≤ r → (∀ i, i < k → s (k0 + i) = 429) →
        200 ≤ s (k0 + k) → s (k0 + k) < 300 →
        countAttempts (requestTrace s r k0) = k + 1
        ∧ requestResult s r k0 = Except.ok (s (k0 + k)) by
      intro hkr h429 hlo hhi
      have := hgen k r 0 hkr (fun i hi => by simpa using h429 i hi)
        (by simpa using hlo) (by simpa using hhi)
      simpa using this
    intro k
    induction k with
    | zero =>
      intro r k0 _ _ hlo hhi
      rw [Nat.add_zero] at hlo hhi
      have hsucc : raisesForStatus (s k0) = false := by
        simp only [raisesForStatus, decide_eq_false_iff_not]
        omega
      cases r with
      | zero =>
        constructor
        · unfold requestTrace countAttempts
          rfl
        · unfold requestResult
          simp only [hsucc, Bool.false_eq_true, if_false]
          simp
      | succ r =>
        constructor
        · unfold requestTrace
          simp only [hsucc, Bool.false_eq_true, if_false]
          rfl
        · unfold requestResult
          simp only [hsucc, Bool.false_eq_true, if_false]
          simp
    | succ k ih =>
      intro r k0 hkr h429 hlo hhi
      cases r with
      | zero => omega
      | succ r =>
        have hk0 : s k0 = 429 := by
          have := h429 0 (by omega)
          simpa using this
        have h4 : raisesForStatus 429 = true := by decide
        have hrec := ih r (k0 + 1) (by omega)
          (fun i hi => by
            have := h429 (i + 1) (by omega)
            have harg : k0 + (i + 1) = k0 + 1 + i := by omega
            rw [harg] at this
            exact this)
          (by
            have harg : k0 + (k + 1) = k0 + 1 + k := by omega
            rw [harg] at hlo
            exact hlo)
          (by
            have harg : k0 + (k + 1) = k0 + 1 + k := by omega
            rw [harg] at hhi
            exact hhi)
        have harg : k0 + (k + 1) = k0 + 1 + k := by omega
        constructor
        · unfold requestTrace
          rw [hk0]
          simp only [h4, if_true, if_pos]
          show countAttempts (Ev.acquire :: Ev.attempt 429 :: Ev.sleep ::
            Ev.release :: requestTrace s r (k0 + 1)) = k + 1 + 1
          simp only [countAttempts]
          rw [hrec.1]
        · unfold requestResult
          rw [hk0]
          simp only [h4, if_true, if_pos]
          rw [harg]
          exact hrec.2

/-- Witness for C4: both conjuncts at concrete inputs.  All-429 with
`retries = 2` makes 3 attempts and errors with 429; a server answering
429, 429, 200 with `retries = 3` succeeds on the third attempt. -/
theorem c4_retry_semantics_witness :
    (countAttempts (requestTrace always429 2 0) = 2 + 1
      ∧ requestResult always429 2 0 = Except.error 429)
    ∧ (countAttempts (requestTrace (fun i => if i < 2 then 429 else 200) 3 0)
          = 2 + 1
      ∧ requestResult (fun i => if i < 2 then 429 else 200) 3 0
          = Except.ok ((fun i => if i < 2 then 429 else 200) 2)) :=
  ⟨c4_retry_semantics.1 always429 2 (fun i _ => rfl),
   c4_retry_semantics.2 (fun i => if i < 2 then 429 else 200) 3 2
     (by omega)
     (fun i hi => by simp [hi])
     (by norm_num)
     (by norm_num)⟩

/-- The all-304 server (a non-2xx status that `raise_for_status` does not
flag). -/
def always304 : Nat → Nat := fun _ => 304

/-- The all-404 server. -/
def always404 : Nat → Nat := fun _ => 404

/-- C5 counterexample: status 304 is a non-2xx status other than 429, yet
`response.raise_for_status()` (aiohttp) only raises for statuses `>= 400`,
so the single attempt is treated as a success and returned — no error is
propagated to the caller, refuting the claim for statuses in 300..399. -/
theorem c5_counterexample :
    (¬ (200 ≤ 304 ∧ 304 < 300)) ∧ 304 ≠ 429
    ∧ requestResult always304 5 0 = Except.ok 304
    ∧ requestTrace always304 5 0 = [Ev.acquire, Ev.attempt 304, Ev.release] :=
  ⟨by omega, by omega, rfl, rfl⟩

/-- C5 amended: for every attempt returning an error status in the sense of
`raise_for_status` — that is, `status >= 400` — other than 429, the error is
propagated immediately after a single attempt regardless of the remaining
retry budget, and the permit of that attempt is still released (the trace is
exactly acquire, attempt, release).  Statuses 300..399 are not flagged by
`raise_for_status` and are returned as successes. -/
theorem c5_fatal_no_retry (s : Nat → Nat) (r st : Nat)
    (hs : s 0 = st) (h4 : 400 ≤ st) (h9 : st ≠ 429) :
    requestTrace s r 0 = [Ev.acquire, Ev.attempt st, Ev.release]
    ∧ requestResult s r 0 = Except.error st
    ∧ countAttempts (requestTrace s r 0) = 1 := by
  have hrs : raisesForStatus st = true := by
    simp only [raisesForStatus, decide_eq_true_eq]
    exact h4
  cases r with
  | zero =>
    refine ⟨?_, ?_, ?_⟩
    · unfold requestTrace
      rw [hs]
    · unfold requestResult
      rw [hs]
      simp only [hrs, if_true]
    · unfold requestTrace countAttempts
      rw [hs]
      rfl
  | succ r =>
    refine ⟨?_, ?_, ?_⟩
    · unfold requestTrace
      rw [hs]
      simp [hrs, h9]
    · unfold requestResult
      rw [hs]
      simp [hrs, h9]
    · unfold requestTrace countAttempts
      rw [hs]
      simp [hrs, h9, countAttempts]

/-- Witness for C5 at a concrete input: a 404 with `retries = 5` makes one
attempt, propagates the 404 and releases the permit. -/
theorem c5_fatal_no_retry_witness :
    requestTrace always404 5 0 = [Ev.acquire, Ev.attempt 404, Ev.release]
    ∧ requestResult always404 5 0 = Except.error 404
    ∧ countAttempts (requestTrace always404 5 0) = 1 :=
  c5_fatal_no_retry always404 5 404 rfl (by omega) (by omega)

/-! ## Rate limiter: `RateLimiter` (locks.py lines 48-145)

`RateLimiter` subclasses `asyncio.BoundedSemaphore`: `_value` is the free
permit count, `_bound_value` the capacity; `RateLimiter.release` (141-145)
only appends `(timer.time(), get_counter())` to the `_releases` deque, and
the background `replenish` loop (115-139) pops entries and calls the
underlying semaphore release while the head entry's recorded counter is
strictly less than the current counter.  Time and counters are modelled as
naturals; `get_counter()` is `time // period`. -/

structure RLState where
  value : Nat
  bound : Nat
  releases : List (Nat × Nat)
deriving DecidableEq, Repr

/-- `RateLimiter.release` (locks.py 141-145): record
`(timer.time(), get_counter())`; the free-permit count is untouched. -/
def rlRelease (t period : Nat) (st : RLState) : RLState :=
  { st with releases := st.releases ++ [(t, t / period)] }

/-- The inner `while self._releases` loop of `RateLimiter.replenish`
(locks.py 123-136) at current counter `cur`: peek the head entry; if its
recorded counter is strictly less than `cur`, pop it and release the
underlying `BoundedSemaphore` (which raises ValueError when `value` is
already at the bound); otherwise stop. -/
def drainAux (cur bound : Nat) : Nat → List (Nat × Nat) →
    Except String (Nat × List (Nat × Nat))
  | value, [] => Except.ok (value, [])
  | value, (ts, ct) :: rest =>
    if ct < cur then
      if bound ≤ value then
        Except.error "ValueError: BoundedSemaphore released too many times"
      else drainAux cur bound (value + 1) rest
    else Except.ok (value, (ts, ct) :: rest)

/-- One wake-up pass of the `replenish` loop at current counter `cur`. -/
def replenishDrain (cur : Nat) (st : RLState) : Except String RLState :=
  match drainAux cur st.bound st.value st.releases with
  | Except.ok (v, rel) => Except.ok { value := v, bound := st.bound, releases := rel }
  | Except.error e => Except.error e

theorem drainAux_spec (cur bound : Nat) :
    ∀ (rel : List (Nat × Nat)) (value v2 : Nat) (rel2 : List (Nat × Nat)),
      drainAux cur bound value rel = Except.ok (v2, rel2) →
      ∃ dropped, rel = dropped ++ rel2
        ∧ (∀ p ∈ dropped, p.2 < cur)
        ∧ v2 = value + dropped.length := by
  intro rel
  induction rel with
  | nil =>
    intro value v2 rel2 h
    unfold drainAux at h
    cases h
    exact ⟨[], rfl, by simp, by simp⟩
  | cons hd tl ih =>
    intro value v2 rel2 h
    obtain ⟨ts, ct⟩ := hd
    unfold drainAux at h
    by_cases hct : ct < cur
    · rw [if_pos hct] at h
      by_cases hb : bound ≤ value
      · rw [if_pos hb] at h
        cases h
      · rw [if_neg hb] at h
        obtain ⟨dropped, hsplit, hlt, hv⟩ := ih (value + 1) v2 rel2 h
        refine ⟨(ts, ct) :: dropped, by simp [hsplit], ?_, by simp [hv]; omega⟩
        intro p hp
        cases hp with
        | head => exact hct
        | tail _ hp2 => exact hlt p hp2
    · rw [if_neg hct] at h
      cases h
      exact ⟨[], rfl, by simp, by simp⟩

/-- C3: deferred epoch-gated release.  If a wake-up of the replenishment
loop at current epoch `cur` succeeds, then (a) the entries it frees are
exactly a front segment of the queue, every one of them recorded at an
epoch strictly less than `cur` — so a release recorded during epoch `E` is
never freed while the current epoch is `≤ E`, i.e. not before epoch `E + 1`
has begun; (b) every recorded entry with epoch `≥ cur` is still in the
queue afterwards, with its multiplicity unchanged; (c) the free-permit
count grows exactly by the number of freed earlier-epoch entries, and
`RateLimiter.release` itself never changes the free-permit count — so a new
acquirer cannot obtain the permit before epoch `E + 1` begins. -/
theorem c3_no_same_epoch_release (cur : Nat) (st st2 : RLState)
    (h : replenishDrain cur st = Except.ok st2) :
    (∃ dropped, st.releases = dropped ++ st2.releases
      ∧ (∀ p ∈ dropped, p.2 < cur)
      ∧ st2.value = st.value + dropped.length)
    ∧ (∀ ts E, cur ≤ E →
        st2.releases.count (ts, E) = st.releases.count (ts, E))
    ∧ (∀ t period st0, (rlRelease t period st0).value = st0.value) := by
  unfold replenishDrain at h
  cases hda : drainAux cur st.bound st.value st.releases with
  | error e => rw [hda] at h; cases h
  | ok vr =>
    rw [hda] at h
    obtain ⟨v, rel⟩ := vr
    cases h
    obtain ⟨dropped, hsplit, hlt, hv⟩ :=
      drainAux_spec cur st.bound st.releases st.value v rel hda
    refine ⟨⟨dropped, hsplit, hlt, hv⟩, ?_, fun t period st0 => rfl⟩
    intro ts E hE
    dsimp only
    have hzero : dropped.count (ts, E) = 0 := by
      rw [List.count_eq_zero]
      intro hmem
      have := hlt (ts, E) hmem
      simp at this
      omega
    rw [hsplit, List.count_append, hzero]
    omega

/-- Witness for C3: queue `[(10, 1), (20, 2)]`, capacity 2, no free permit;
a wake-up at epoch 2 frees exactly the entry recorded at epoch 1 and leaves
the entry recorded at epoch 2 queued with the value grown by one. -/
theorem c3_no_same_epoch_release_witness :
    (∃ dropped, ([((10 : Nat), (1 : Nat)), (20, 2)] : List (Nat × Nat))
        = dropped ++ [((20 : Nat), (2 : Nat))]
      ∧ (∀ p ∈ dropped, p.2 < 2)
      ∧ (1 : Nat) = 0 + dropped.length)
    ∧ (∀ ts E, 2 ≤ E →
        (([((20 : Nat), (2 : Nat))] : List (Nat × Nat)).count (ts, E))
          = (([((10 : Nat), (1 : Nat)), (20, 2)] : List (Nat × Nat)).count (ts, E)))
    ∧ (∀ t period st0, (rlRelease t period st0).value = st0.value) :=
  c3_no_same_epoch_release 2
    { value := 0, bound := 2, releases := [(10, 1), (20, 2)] }
    { value := 1, bound := 2, releases := [(20, 2)] }
    rfl

/-! ## Limiter lifecycle and reconfiguration (locks.py 98-175, client.py 92-94)

A `Limiter` is one `RateLimiter` instance: its identity (`id`), its
semaphore state and whether its replenishment task is running
(`self._task is not None`).  Lifecycle calls additionally emit the loop
actions they perform, so "the old loop is stopped before the new loop is
started" is an ordering fact about the emitted action list. -/

inductive LoopAction where
  | stopLoop (id : Nat)
  | startLoop (id : Nat)
deriving DecidableEq, Repr

structure Limiter where
  id : Nat
  sem : RLState
  started : Bool
deriving DecidableEq, Repr

/-- `RateLimiter.start` (locks.py 98-104): create the replenish task only
if not already started (idempotent). -/
def limiterStart (l : Limiter) : Limiter × List LoopAction :=
  if l.started then (l, [])
  else ({ l with started := true }, [LoopAction.startLoop l.id])

/-- `RateLimiter.stop` (locks.py 106-113): cancel the replenish task if
running; the semaphore state (`value`, `bound`, `releases`) is untouched. -/
def limiterStop (l : Limiter) : Limiter × List LoopAction :=
  if l.started then ({ l with started := false }, [LoopAction.stopLoop l.id])
  else (l, [])

/-- `RateLimiter.__init__` (locks.py 58-72): a fresh bounded semaphore at
capacity `limit` with an empty release queue, then `self.start()`. -/
def limiterNew (id limit : Nat) : Limiter × List LoopAction :=
  limiterStart
    { id := id, sem := { value := limit, bound := limit, releases := [] },
      started := false }

def FRED_API_RATE_LIMIT : Nat := 120

/-- `locks.set_rate_limit` (locks.py 158-175): reject limits above the
FRED cap, else `_ratelimiter.stop()`, construct a fresh `RateLimiter`
(whose constructor starts its loop) and call `start()` on it again.
Returns the old instance, the new instance and the emitted loop actions in
program order. -/
def set_rate_limit (newId limit : Nat) (old : Limiter) :
    Except String (Limiter × Limiter × List LoopAction) :=
  if FRED_API_RATE_LIMIT < limit then
    Except.error "ValueError: Limit must be <= 120"
  else
    let s1 := limiterStop old
    let s2 := limiterNew newId limit
    let s3 := limiterStart s2.1
    Except.ok (s1.1, s3.1, s1.2 ++ s2.2 ++ s3.2)

/-- `ApiClient.set_rate_limit` (client.py 92-94): rebinds the class
attribute to a fresh `RateLimiter` without stopping the old one. -/
def apiClientSetRateLimit (newId limit : Nat) (old : Limiter) :
    Limiter × Limiter × List LoopAction :=
  let s2 := limiterNew newId limit
  (old, s2.1, s2.2)

/-! ### Claim theorems about reconfiguration (C9) -/

/-- C9 counterexample: `ApiClient.set_rate_limit` starts the new limiter's
replenishment loop while the old limiter is still started and emits no
stop action at all — the old loop is not stopped before (or after) the new
loop starts, refuting the claim for this reconfiguration path. -/
theorem c9_counterexample :
    (apiClientSetRateLimit 1 2
        { id := 0, sem := { value := 2, bound := 2, releases := [] },
          started := true }).1.started = true
    ∧ (apiClientSetRateLimit 1 2
        { id := 0, sem := { value := 2, bound := 2, releases := [] },
          started := true }).2.2 = [LoopAction.startLoop 1]
    ∧ (apiClientSetRateLimit 1 2
        { id := 0, sem := { value := 2, bound := 2, releases := [] },
          started := true }).2.1.started = true := by
  refine ⟨rfl, rfl, rfl⟩

/-- C9 amended: the `locks.set_rate_limit` path behaves as claimed: for a
started old limiter and an admissible new capacity, the emitted loop
actions are exactly `[stop old, start new]` — the old replenishment loop is
stopped strictly before the new limiter's loop starts (the extra
`start()` call on the already-started new instance is a no-op) — and the
old instance's semaphore state is unchanged, so in-flight acquires holding
a reference to the old instance proceed against exactly the state they
acquired from.  `ApiClient.set_rate_limit`, by contrast, never stops the
old loop (see the counterexample). -/
theorem c9_locks_reconfigure (newId limit : Nat) (old : Limiter)
    (hst : old.started = true) (hlim : limit ≤ FRED_API_RATE_LIMIT) :
    set_rate_limit newId limit old =
      Except.ok ({ old with started := false },
        { id := newId,
          sem := { value := limit, bound := limit, releases := [] },
          started := true },
        [LoopAction.stopLoop old.id, LoopAction.startLoop newId])
    ∧ ({ old with started := false } : Limiter).sem = old.sem := by
  refine ⟨?_, rfl⟩
  unfold set_rate_limit limiterStop limiterNew limiterStart
  rw [if_neg (by omega)]
  simp only [hst, if_true]
  rfl

/-- Witness for C9 at a concrete input: a started limiter of capacity 2
reconfigured to capacity 3. -/
theorem c9_locks_reconfigure_witness :
    set_rate_limit 1 3
        { id := 0, sem := { value := 2, bound := 2, releases := [(10, 1)] },
          started := true } =
      Except.ok
        ({ id := 0, sem := { value := 2, bound := 2, releases := [(10, 1)] },
           started := false },
         { id := 1, sem := { value := 3, bound := 3, releases := [] },
           started := true },
         [LoopAction.stopLoop 0, LoopAction.startLoop 1])
    ∧ ({ id := 0, sem := { value := 2, bound := 2, releases := [(10, 1)] },
         started := false } : Limiter).sem
        = ({ id := 0, sem := { value := 2, bound := 2, releases := [(10, 1)] },
             started := true } : Limiter).sem :=
  c9_locks_reconfigure 1 3
    { id := 0, sem := { value := 2, bound := 2, releases := [(10, 1)] },
      started := true }
    rfl (by decide)

/-! ## Event bus: events.py

A handler is modelled by its behaviour when invoked: it either returns
normally or raises.  `_events` is the registry dict, modelled as an
association list in insertion order (Python dicts preserve it). -/

inductive HB where
  | ok
  | raises (msg : String)
deriving DecidableEq, Repr

structure Event where
  name : String
  handlers : List HB
  frozen : Bool
deriving DecidableEq, Repr

/-- `Event.add` (events.py 29-41): raise `RuntimeError` on a frozen event,
otherwise append the handler. -/
def Event.add (e : Event) (h : HB) : Except String Event :=
  if e.frozen then Except.error "RuntimeError: Cannot modify frozen event"
  else Except.ok { e with handlers := e.handlers ++ [h] }

/-- `Event.freeze` (events.py 43-44). -/
def Event.freeze (e : Event) : Event := { e with frozen := true }

/-- `Event.apply` (events.py 46-56): a single try/except wraps the whole
`for handler in self._handlers` loop; an exception raised by a handler is
caught and logged and `apply` returns normally, but it also aborts the
loop, so handlers after the raising one are not invoked.  Returns the
number of handlers invoked and the logged exception, if any. -/
def applyGo : List HB → Nat × Option String
  | [] => (0, none)
  | HB.ok :: rest => ((applyGo rest).1 + 1, (applyGo rest).2)
  | HB.raises m :: _ => (1, some m)

def Event.apply (e : Event) : Nat × Option String := applyGo e.handlers

/-- Replace the binding of `name` in the registry (in-place mutation of the
dict value in the source). -/
def updateAssoc (name : String) (e : Event) :
    List (String × Event) → List (String × Event)
  | [] => []
  | (n, ev) :: rest =>
    if n = name then (n, e) :: rest else (n, ev) :: updateAssoc name e rest

/-- `events.register` (events.py 156-163):
`_events.setdefault(name, Event(name)).add(fn)` — an existing event is
appended to (raising if frozen); an absent name inserts a fresh, unfrozen
`Event(name)` and the add always succeeds on it. -/
def register (name : String) (h : HB) (evs : List (String × Event)) :
    Except String (List (String × Event)) :=
  match evs.lookup name with
  | some e =>
    match e.add h with
    | Except.ok e2 => Except.ok (updateAssoc name e2 evs)
    | Except.error m => Except.error m
  | none =>
    match Event.add { name := name, handlers := [], frozen := false } h with
    | Except.ok e2 => Except.ok (evs ++ [(name, e2)])
    | Except.error m => Except.error m

structure Bus where
  events : List (String × Event)
  listening : Bool
deriving DecidableEq, Repr

/-- `events.listen` (events.py 126-144): if the consumer task is not
running, freeze every event currently in `_events` and start the task. -/
def listen (b : Bus) : Bus :=
  if b.listening then b
  else { events := b.events.map (fun p => (p.1, p.2.freeze)), listening := true }

/-- `events.consume` (events.py 70-86) for one queued `(name, data)` pair:
look the name up in the registry and apply its handlers (in a fire-and-
forget task whose exceptions are already caught inside `Event.apply`);
unmatched names are dropped with `task_done`. -/
def consume (reg : List (String × Event)) (item : String × Nat) :
    Nat × Option String :=
  match reg.lookup item.1 with
  | some e => e.apply
  | none => (0, none)

/-- The consumer loop over a queue of pending events. -/
def consumeAll (reg : List (String × Event)) (q : List (String × Nat)) :
    List (Nat × Option String) :=
  q.map (consume reg)

/-! ### Claim theorems about the event bus (C7, C8) -/

theorem lookup_map_freeze (evs : List (String × Event)) (name : String) :
    (evs.map (fun p => (p.1, p.2.freeze))).lookup name
      = (evs.lookup name).map Event.freeze := by
  induction evs with
  | nil => rfl
  | cons hd tl ih =>
    obtain ⟨n, ev⟩ := hd
    by_cases hn : name = n
    · subst hn
      simp [List.lookup]
    · simp [List.lookup, beq_false_of_ne hn, ih]

theorem lookup_none_of_not_mem (evs : List (String × Event)) (name : String)
    (h : name ∉ evs.map Prod.fst) : evs.lookup name = none := by
  induction evs with
  | nil => rfl
  | cons hd tl ih =>
    obtain ⟨n, ev⟩ := hd
    simp only [List.map_cons, List.mem_cons] at h
    push_neg at h
    simp [List.lookup, beq_false_of_ne h.1, ih h.2]

theorem lookup_mem (evs : List (String × Event)) (name : String)
    (h : name ∈ evs.map Prod.fst) : ∃ e, evs.lookup name = some e := by
  induction evs with
  | nil => simp at h
  | cons hd tl ih =>
    obtain ⟨n, ev⟩ := hd
    by_cases hn : name = n
    · subst hn
      exact ⟨ev, by simp [List.lookup]⟩
    · simp only [List.map_cons, List.mem_cons] at h
      obtain ⟨e, he⟩ := ih (by
        rcases h with h | h
        · exact absurd h hn
        · exact h)
      exact ⟨e, by simp [List.lookup, beq_false_of_ne hn, he]⟩

/-- An idle bus with a single pre-registered handler for "foo". -/
def fooBus : Bus :=
  { events := [("foo", { name := "foo", handlers := [HB.ok], frozen := false })],
    listening := false }

/-- C7 counterexample: with one event "foo" registered before
`events.listen()`, a post-listen registration for the fresh name "bar" is
accepted (the `setdefault` creates a new, unfrozen `Event("bar")`), not
rejected — refuting "every handler registration, for any event name, is
rejected after listening starts". -/
theorem c7_counterexample :
    register "bar" HB.ok (listen fooBus).events
      = Except.ok
          [("foo", { name := "foo", handlers := [HB.ok], frozen := true }),
           ("bar", { name := "bar", handlers := [HB.ok], frozen := false })] := by
  rfl

/-- C7 amended: starting to listen freezes exactly the events present in
the registry at that moment: a post-listen registration for any name that
was present is rejected with `RuntimeError: Cannot modify frozen event`,
while a registration for a name that was absent creates a fresh unfrozen
event and is accepted. -/
theorem c7_freeze_scope (evs : List (String × Event)) (h : HB) :
    (∀ name, name ∈ evs.map Prod.fst →
      register name h (listen { events := evs, listening := false }).events
        = Except.error "RuntimeError: Cannot modify frozen event")
    ∧ (∀ name, name ∉ evs.map Prod.fst →
      register name h (listen { events := evs, listening := false }).events
        = Except.ok ((listen { events := evs, listening := false }).events
            ++ [(name, { name := name, handlers := [h], frozen := false })])) := by
  have hlis : (listen { events := evs, listening := false }).events
      = evs.map (fun p => (p.1, p.2.freeze)) := by
    unfold listen
    rfl
  constructor
  · intro name hmem
    rw [hlis]
    obtain ⟨e, he⟩ := lookup_mem evs name hmem
    unfold register
    rw [lookup_map_freeze, he]
    rfl
  · intro name hmem
    rw [hlis]
    unfold register
    rw [lookup_map_freeze, lookup_none_of_not_mem evs name hmem]
    rfl

/-- Witness for C7: with `[("foo", ...)]` registered pre-listen, a
post-listen registration for "foo" errors and one for "baz" succeeds. -/
theorem c7_freeze_scope_witness :
    register "foo" HB.ok
        (listen { events := fooBus.events, listening := false }).events
      = Except.error "RuntimeError: Cannot modify frozen event"
    ∧ register "baz" HB.ok
        (listen { events := fooBus.events, listening := false }).events
      = Except.ok ((listen { events := fooBus.events, listening := false }).events
          ++ [("baz", { name := "baz", handlers := [HB.ok], frozen := false })]) :=
  ⟨(c7_freeze_scope fooBus.events HB.ok).1 "foo" (by simp [fooBus]),
   (c7_freeze_scope fooBus.events HB.ok).2 "baz" (by simp [fooBus])⟩

/-- C8 counterexample: an event with two handlers where the first raises:
`Event.apply` invokes only 1 of the 2 handlers — the single try/except
around the whole handler loop means an exception in one handler prevents
the remaining handlers of that same event from running, refuting that part
of the claim (the exception is still caught and logged, not propagated). -/
theorem c8_counterexample :
    applyGo [HB.raises "boom", HB.ok] = (1, some "boom")
    ∧ ([HB.raises "boom", HB.ok] : List HB).length = 2 := by
  refine ⟨rfl, rfl⟩

/-- C8 amended: a handler exception is contained and logged — `Event.apply`
always returns normally, any logged message comes from one of that event's
own handlers, nothing propagates to the producer, and dispatch of queued
events is unaffected: the consumer processes every queued item, and the
items after any given point are processed exactly as they would be alone —
but within one event, handlers after the raising one are skipped (see the
counterexample). -/
theorem c8_handler_error_contained (reg : List (String × Event)) :
    (∀ q, (consumeAll reg q).length = q.length)
    ∧ (∀ q1 q2, consumeAll reg (q1 ++ q2)
        = consumeAll reg q1 ++ consumeAll reg q2)
    ∧ (∀ hs m, (applyGo hs).2 = some m → HB.raises m ∈ hs) := by
  refine ⟨fun q => by simp [consumeAll], fun q1 q2 => by simp [consumeAll], ?_⟩
  intro hs
  induction hs with
  | nil => intro m h; cases h
  | cons hd tl ih =>
    intro m h
    cases hd with
    | ok =>
      simp only [applyGo] at h
      exact List.mem_cons_of_mem _ (ih m h)
    | raises m2 =>
      simp only [applyGo] at h
      cases h
      exact List.mem_cons_self _ _

/-- A listening registry whose single "foo" handler raises. -/
def boomReg : List (String × Event) :=
  [("foo", { name := "foo", handlers := [HB.raises "boom"], frozen := true })]

/-- Witness for C8: the consumer dispatches both queued events of a queue
of length 2 even though the first one's handler raises, and the logged
message of the raising run comes from the event's handler list. -/
theorem c8_handler_error_contained_witness :
    (consumeAll boomReg [("foo", 0), ("foo", 1)]).length
        = ([("foo", 0), ("foo", 1)] : List (String × Nat)).length
    ∧ HB.raises "boom" ∈ ([HB.raises "boom"] : List HB) :=
  ⟨(c8_handler_error_contained boomReg).1 [("foo", 0), ("foo", 1)],
   (c8_handler_error_contained boomReg).2.2 [HB.raises "boom"] "boom" rfl⟩

end Fredio
